import Mathlib

/- Shallow embedding of the F1 standings tracker's prediction-and-scoring core
   (public/js/utils/pointsCalculator.js, public/js/utils/predictionManager.js,
   public/js/app.js, public/js/components/tableRenderer.js): scoring tables,
   result resolution, the prediction store with swap-on-write, the totals
   aggregator, and the column-visibility model. JS objects are modelled as
   association lists preserving key insertion order; JS Sets as Finsets;
   absent-vs-null stored values are conflated to `none` (the two are
   observationally equal in every code path the claims touch). -/

/-- Column identifiers used in the renderer's collapsed-column set; the source
uses the strings "race-R", "sprint-R", "gap-leader", "gap-ahead",
"predicted-points" and "predicted-standing". -/
inductive ColumnKey where
  | race (round : Nat)
  | sprint (round : Nat)
  | gapLeader
  | gapAhead
  | predictedPoints
  | predictedStanding
deriving DecidableEq, Repr

/-- A season round as the schedule reports it: round number and whether the
weekend carries a sprint event (`race.Sprint !== undefined` in the source). -/
structure Race where
  round : Nat
  hasSprint : Bool
deriving DecidableEq, Repr

/-- One row of an actual result set, with the fields the code reads
(Driver.driverId, positionText, position, points; numeric strings already
parsed to numbers). -/
structure ResultEntry where
  driverId : String
  positionText : String
  position : Nat
  points : Nat
deriving DecidableEq, Repr

/-- The record getDriverRaceResult / getDriverSprintResult return. -/
structure RaceResult where
  position : Nat
  points : Nat
  isActual : Bool
deriving DecidableEq, Repr

/-- One row of a qualifying result set. -/
structure QualEntry where
  driverId : String
  position : Nat
deriving DecidableEq, Repr

/-- A standings row, restricted to the fields the resolver reads: driver id
and current championship position. -/
structure DriverStanding where
  driverId : String
  position : Nat
deriving DecidableEq, Repr

/-- Lookup in a JS-object-like association list (first entry with the key). -/
def getAssoc {κ ν : Type} [BEq κ] (m : List (κ × ν)) (k : κ) : Option ν :=
  (m.find? (fun e => e.1 == k)).map (fun e => e.2)

/-- JS object property write: overwrite the key in place when present (key
order preserved), append a new entry otherwise. -/
def setAssoc {κ ν : Type} [BEq κ] (m : List (κ × ν)) (k : κ) (v : ν) : List (κ × ν) :=
  if (m.find? (fun e => e.1 == k)).isSome then
    m.map (fun e => if e.1 == k then (k, v) else e)
  else
    m ++ [(k, v)]

/-- A per-round prediction map: driver id to predicted position (`some`) or the
explicit null prediction (`none`). Entry order models JS object key order. -/
abbrev PredMap := List (String × Option Int)

/-- Predictions keyed by round (the userPredictions / sprintPredictions
objects of PredictionManager). -/
abbrev PredStore := List (Nat × PredMap)

/-- The round's prediction map as the code reads it via
`predictions[round] || \x7b\x7d`. -/
def roundMap (s : PredStore) (round : Nat) : PredMap :=
  (getAssoc s round).getD []

/-- The stored prediction entry for one driver in one round: `none` when the
round map is absent or has no own property for the driver. -/
def lookupPred (s : PredStore) (round : Nat) (driverId : String) : Option (Option Int) :=
  getAssoc (roundMap s round) driverId

/-- The main-event scoring table (POINTS_SYSTEM). -/
def POINTS_SYSTEM : List (Int × Nat) :=
  [(1, 25), (2, 18), (3, 15), (4, 12), (5, 10), (6, 8), (7, 6), (8, 4), (9, 2), (10, 1)]

/-- The sprint scoring table (SPRINT_POINTS_SYSTEM). -/
def SPRINT_POINTS_SYSTEM : List (Int × Nat) :=
  [(1, 8), (2, 7), (3, 6), (4, 5), (5, 4), (6, 3), (7, 2), (8, 1)]

/-- PointsCalculator.getRacePoints: `POINTS_SYSTEM[position] || 0`. -/
def PointsCalculator.getRacePoints (position : Int) : Nat :=
  (getAssoc POINTS_SYSTEM position).getD 0

/-- PointsCalculator.getSprintPoints: `SPRINT_POINTS_SYSTEM[position] || 0`. -/
def PointsCalculator.getSprintPoints (position : Int) : Nat :=
  (getAssoc SPRINT_POINTS_SYSTEM position).getD 0

/-- PointsCalculator.getDriverRaceResult: when the round is resolved and the
driver has an entry, return the stored data with isActual set; positionText
"R" resolves to position 0. -/
def PointsCalculator.getDriverRaceResult (driverId : String) (round : Nat)
    (raceResults : Nat → Option (List ResultEntry)) : Option RaceResult :=
  match raceResults round with
  | some rs =>
    match rs.find? (fun r => r.driverId == driverId) with
    | some r => some { position := if r.positionText == "R" then 0 else r.position,
                       points := r.points, isActual := true }
    | none => none
  | none => none

/-- PointsCalculator.getDriverSprintResult: same resolution on the sprint
result sets. -/
def PointsCalculator.getDriverSprintResult (driverId : String) (round : Nat)
    (sprintResults : Nat → Option (List ResultEntry)) : Option RaceResult :=
  match sprintResults round with
  | some rs =>
    match rs.find? (fun r => r.driverId == driverId) with
    | some r => some { position := if r.positionText == "R" then 0 else r.position,
                       points := r.points, isActual := true }
    | none => none
  | none => none

/-- PointsCalculator.calculateTotalPoints: per round, add sprint points (when
the round has a sprint and the sprint column is not collapsed) and race points
(when the race column is not collapsed); an actual result contributes its
stored points, otherwise the predicted position's table points when that
position is positive. The two prediction-store arguments are passed by the
source but never read inside the function. -/
def PointsCalculator.calculateTotalPoints (driverId : String) (races : List Race)
    (raceResults sprintResults : Nat → Option (List ResultEntry))
    (_userPredictions _sprintPredictions : PredStore)
    (collapsedColumns : Finset ColumnKey)
    (getPredictedPosition : String → Nat → Bool → Int) : Nat :=
  races.foldl (fun totalPoints race =>
    let round := race.round
    let totalPoints :=
      if race.hasSprint ∧ ColumnKey.sprint round ∉ collapsedColumns then
        match PointsCalculator.getDriverSprintResult driverId round sprintResults with
        | some sprintResult => totalPoints + sprintResult.points
        | none =>
          let predictedPos := getPredictedPosition driverId round true
          if 0 < predictedPos then totalPoints + PointsCalculator.getSprintPoints predictedPos
          else totalPoints
      else totalPoints
    if ColumnKey.race round ∉ collapsedColumns then
      match PointsCalculator.getDriverRaceResult driverId round raceResults with
      | some raceResult => totalPoints + raceResult.points
      | none =>
        let predictedPos := getPredictedPosition driverId round false
        if 0 < predictedPos then totalPoints + PointsCalculator.getRacePoints predictedPos
        else totalPoints
    else totalPoints) 0

/-- PredictionManager.getPredictedPosition, the resolver's predicted-position
computation exactly as coded: an explicit stored entry wins (null stored value
yields 0); else a published qualifying set for the round decides (the driver's
row when present, 0 otherwise); else the driver's championship position when
at most 20, and 0 when above 20 or the driver is unknown. The two stores stand
for the manager's own userPredictions / sprintPredictions fields. -/
def PredictionManager.getPredictedPosition
    (userPredictions sprintPredictions : PredStore)
    (driverId : String) (round : Nat) (isSprint : Bool)
    (qualifyingResults sprintQualifyingResults : Nat → Option (List QualEntry))
    (driversData : List DriverStanding) : Int :=
  let predictions := if isSprint then sprintPredictions else userPredictions
  match lookupPred predictions round driverId with
  | some pos =>
    match pos with
    | none => 0
    | some v => v
  | none =>
    let qualResults := if isSprint then sprintQualifyingResults else qualifyingResults
    match qualResults round with
    | some qs =>
      match qs.find? (fun q => q.driverId == driverId) with
      | some qualResult => (qualResult.position : Int)
      | none => 0
    | none =>
      match driversData.find? (fun d => d.driverId == driverId) with
      | none => 0
      | some driver => if 20 < driver.position then 0 else (driver.position : Int)

/-- PredictionManager.updatePrediction: create the round object when missing,
then write the driver's entry. updateSprintPrediction is the identical
operation on the sprint store; the store is an explicit argument here. -/
def PredictionManager.updatePrediction (s : PredStore) (driverId : String)
    (round : Nat) (position : Option Int) : PredStore :=
  setAssoc s round (setAssoc (roundMap s round) driverId position)

/-- The app-level write path shared by F1StandingsApp.updatePrediction and
F1StandingsApp.updateSprintPrediction (app.js): the '0' option becomes null;
when the written position is positive, the first other driver currently
holding it receives the writer's previous stored value (none when the writer
had no entry or an explicit null); finally the writer's entry is set. -/
def appUpdateStore (s : PredStore) (driverId : String) (round : Nat)
    (position : Nat) : PredStore :=
  if position = 0 then
    PredictionManager.updatePrediction s driverId round none
  else
    PredictionManager.updatePrediction
      (if 0 < (position : Int) then
        match (roundMap s round).find? (fun e => e.1 != driverId && e.2 == some (position : Int)) with
        | some other =>
          PredictionManager.updatePrediction s other.1 round
            ((((roundMap s round).find? (fun e => e.1 == driverId)).map (fun e => e.2)).getD none)
        | none => s
      else s)
      driverId round (some (position : Int))

/-- The application state the write path can touch: both prediction stores and
the renderer's collapsed-column set. -/
structure AppState where
  userPredictions : PredStore
  sprintPredictions : PredStore
  collapsedColumns : Finset ColumnKey

/-- F1StandingsApp.updatePrediction: the race-event write path. -/
def F1StandingsApp.updatePrediction (st : AppState) (driverId : String)
    (round : Nat) (position : Nat) : AppState :=
  { st with userPredictions := appUpdateStore st.userPredictions driverId round position }

/-- F1StandingsApp.updateSprintPrediction: the sprint-event write path. -/
def F1StandingsApp.updateSprintPrediction (st : AppState) (driverId : String)
    (round : Nat) (position : Nat) : AppState :=
  { st with sprintPredictions := appUpdateStore st.sprintPredictions driverId round position }

/-- The check opening TableRenderer.toggleAllFuture: is any unresolved round's
main race column currently visible? The source's loop inspects only
`race-` columns here, never `sprint-` columns. -/
def anyFutureVisible (races : List Race)
    (raceResults : Nat → Option (List ResultEntry))
    (collapsedColumns : Finset ColumnKey) : Bool :=
  races.any (fun race =>
    (raceResults race.round).isNone && decide (ColumnKey.race race.round ∉ collapsedColumns))

/-- One iteration of toggleAllFuture's loop over the schedule: add or remove
the round's unresolved race and sprint keys according to the decision. -/
def toggleFutureStep (anyVis : Bool)
    (raceResults sprintResults : Nat → Option (List ResultEntry))
    (acc : Finset ColumnKey) (race : Race) : Finset ColumnKey :=
  let acc1 :=
    if (raceResults race.round).isNone then
      if anyVis then insert (ColumnKey.race race.round) acc
      else acc.erase (ColumnKey.race race.round)
    else acc
  if race.hasSprint && (sprintResults race.round).isNone then
    if anyVis then insert (ColumnKey.sprint race.round) acc1
    else acc1.erase (ColumnKey.sprint race.round)
  else acc1

/-- TableRenderer.toggleAllFuture: when any unresolved race column is visible,
collapse every unresolved race and sprint column plus the two projected
aggregate columns; otherwise expand them all. Also returns that decision. -/
def TableRenderer.toggleAllFuture (races : List Race)
    (raceResults sprintResults : Nat → Option (List ResultEntry))
    (collapsedColumns : Finset ColumnKey) : Finset ColumnKey × Bool :=
  let anyVis := anyFutureVisible races raceResults collapsedColumns
  let collapsed1 :=
    races.foldl (toggleFutureStep anyVis raceResults sprintResults) collapsedColumns
  let collapsed2 :=
    if anyVis then
      insert ColumnKey.predictedPoints (insert ColumnKey.predictedStanding collapsed1)
    else
      (collapsed1.erase ColumnKey.predictedPoints).erase ColumnKey.predictedStanding
  (collapsed2, anyVis)

/-- The set of keys toggleAllFuture acts on: every unresolved race and sprint
column of the schedule plus the two synthetic projected columns. -/
def futureKeys (races : List Race)
    (raceResults sprintResults : Nat → Option (List ResultEntry)) : Finset ColumnKey :=
  races.foldl (toggleFutureStep true raceResults sprintResults)
    {ColumnKey.predictedPoints, ColumnKey.predictedStanding}

/-- One renderable column as getOrderedColumns builds it. -/
structure Column where
  isSprint : Bool
  round : Nat
  isCollapsed : Bool
  isFuture : Bool
deriving DecidableEq, Repr

/-- The chronological column list getOrderedColumns builds before sorting: for
each round in schedule order, the sprint column (when the round has one) and
then the main race column. -/
def buildColumns (races : List Race)
    (raceResults sprintResults : Nat → Option (List ResultEntry))
    (collapsedColumns : Finset ColumnKey) : List Column :=
  races.flatMap (fun race =>
    (if race.hasSprint then
      [{ isSprint := true, round := race.round,
         isCollapsed := decide (ColumnKey.sprint race.round ∈ collapsedColumns),
         isFuture := (sprintResults race.round).isNone : Column }]
    else []) ++
    [{ isSprint := false, round := race.round,
       isCollapsed := decide (ColumnKey.race race.round ∈ collapsedColumns),
       isFuture := (raceResults race.round).isNone : Column }])

/-- The sort comparator of getOrderedColumns, as a may-precede relation: the
JS comparator answers 1 (a after b) exactly when a is collapsed and b is not. -/
def colLE (a b : Column) : Bool :=
  !a.isCollapsed || b.isCollapsed

/-- Insertion respecting colLE; inserting from the right before the first
element the new one may precede realizes the stable sort the JS engine
guarantees for Array.prototype.sort with this comparator. -/
def orderedInsertCol (x : Column) : List Column → List Column
  | [] => [x]
  | b :: l => if colLE x b then x :: b :: l else b :: orderedInsertCol x l

/-- Stable sort of the column list by collapsed-state. -/
def insertionSortCols : List Column → List Column
  | [] => []
  | a :: l => orderedInsertCol a (insertionSortCols l)

/-- TableRenderer.getOrderedColumns: build the chronological column list and
stably sort it so collapsed columns come after visible ones. -/
def TableRenderer.getOrderedColumns (races : List Race)
    (raceResults sprintResults : Nat → Option (List ResultEntry))
    (collapsedColumns : Finset ColumnKey) : List Column :=
  insertionSortCols (buildColumns races raceResults sprintResults collapsedColumns)

/-- The resolver's predicted-position priority chain as the spec states it: a
stored prediction entry is used first (an explicit null entry means no
prediction, 0); else published qualifying data for the round decides (the
participant's qualifying position when they appear, 0 when they do not); else
the championship position when at most 20, and 0 when above 20 or unknown. -/
def specPredictedPosition
    (userPredictions sprintPredictions : PredStore)
    (driverId : String) (round : Nat) (isSprint : Bool)
    (qualifyingResults sprintQualifyingResults : Nat → Option (List QualEntry))
    (driversData : List DriverStanding) : Int :=
  match lookupPred (if isSprint then sprintPredictions else userPredictions) round driverId with
  | some (some v) => v
  | some none => 0
  | none =>
    match (if isSprint then sprintQualifyingResults else qualifyingResults) round with
    | some order =>
      match order.find? (fun q => q.driverId == driverId) with
      | some q => (q.position : Int)
      | none => 0
    | none =>
      match driversData.find? (fun d => d.driverId == driverId) with
      | some driver => if driver.position ≤ 20 then (driver.position : Int) else 0
      | none => 0

/-- The one-to-one prediction invariant: within one round/event-kind map, two
entries holding the same concrete positive position name the same driver. -/
def OneToOne (m : PredMap) : Prop :=
  ∀ p : Int, 0 < p → ∀ e1 ∈ m, ∀ e2 ∈ m, e1.2 = some p → e2.2 = some p → e1.1 = e2.1

/- Association-list lemmas. -/

lemma getAssoc_setAssoc_self {κ ν : Type} [BEq κ] [LawfulBEq κ]
    (m : List (κ × ν)) (k : κ) (v : ν) :
    getAssoc (setAssoc m k v) k = some v := by
  unfold getAssoc setAssoc
  cases hfind : m.find? (fun e => e.1 == k) with
  | none =>
    simp only [hfind, Option.isSome_none, Bool.false_eq_true, if_false]
    rw [List.find?_append, hfind]
    simp
  | some a =>
    simp only [hfind, Option.isSome_some, if_true]
    rw [List.find?_map]
    have hp : ((fun e : κ × ν => e.1 == k) ∘ fun e : κ × ν => if e.1 == k then (k, v) else e)
        = fun e : κ × ν => e.1 == k := by
      funext e
      by_cases he : (e.1 == k) = true
      · simp [he]
      · simp [he]
    rw [hp, hfind]
    have ha : (a.1 == k) = true := by
      have h1 := List.find?_some hfind
      exact h1
    simp [ha]

lemma getAssoc_setAssoc_other {κ ν : Type} [BEq κ] [LawfulBEq κ]
    (m : List (κ × ν)) (k k' : κ) (v : ν) (hk : k' ≠ k) :
    getAssoc (setAssoc m k v) k' = getAssoc m k' := by
  unfold getAssoc setAssoc
  have hkk : (k == k') = false := beq_eq_false_iff_ne.mpr (Ne.symm hk)
  cases hfind : m.find? (fun e => e.1 == k) with
  | none =>
    simp only [hfind, Option.isSome_none, Bool.false_eq_true, if_false]
    rw [List.find?_append]
    have h2 : ([(k, v)].find? (fun e => e.1 == k')) = none := by
      simp [List.find?, hkk]
    rw [h2]
    simp
  | some a =>
    simp only [hfind, Option.isSome_some, if_true]
    rw [List.find?_map]
    have hp : ((fun e : κ × ν => e.1 == k') ∘ fun e : κ × ν => if e.1 == k then (k, v) else e)
        = fun e : κ × ν => e.1 == k' := by
      funext e
      by_cases he : (e.1 == k) = true
      · simp only [Function.comp_apply, he, if_true]
        rw [show e.1 = k from eq_of_beq he]
      · simp [he]
    rw [hp]
    cases hf : m.find? (fun e => e.1 == k') with
    | none => simp
    | some b =>
      have hb : (b.1 == k') = true := by
        have h1 := List.find?_some hf
        exact h1
      have hbk : (b.1 == k) = false := by
        rw [eq_of_beq hb]
        exact beq_eq_false_iff_ne.mpr hk
      simp [hbk]

lemma mem_setAssoc {κ ν : Type} [BEq κ] [LawfulBEq κ]
    {m : List (κ × ν)} {k : κ} {v : ν} {e : κ × ν} (he : e ∈ setAssoc m k v) :
    e = (k, v) ∨ (e ∈ m ∧ e.1 ≠ k) := by
  unfold setAssoc at he
  by_cases hfind : (m.find? (fun x => x.1 == k)).isSome
  · rw [if_pos hfind] at he
    obtain ⟨a, ham, hae⟩ := List.mem_map.mp he
    by_cases ha : (a.1 == k) = true
    · left
      rw [← hae]
      simp [ha]
    · right
      rw [← hae]
      simp only [ha, Bool.false_eq_true, if_false]
      exact ⟨ham, fun hh => ha (by rw [hh]; exact beq_self_eq_true k)⟩
  · rw [if_neg hfind] at he
    rcases List.mem_append.mp he with h | h
    · right
      refine ⟨h, fun hh => ?_⟩
      have hnone : m.find? (fun x => x.1 == k) = none :=
        Option.not_isSome_iff_eq_none.mp hfind
      have := List.find?_eq_none.mp hnone e h
      simp [hh] at this
    · left
      simpa using h

lemma getAssoc_eq_some {κ ν : Type} [BEq κ] [LawfulBEq κ]
    {m : List (κ × ν)} {k : κ} {v : ν} (h : getAssoc m k = some v) :
    ∃ e, e ∈ m ∧ e.1 = k ∧ e.2 = v := by
  unfold getAssoc at h
  cases hf : m.find? (fun e => e.1 == k) with
  | none => rw [hf] at h; simp at h
  | some a =>
    rw [hf] at h
    have ha : (a.1 == k) = true := by
      have h1 := List.find?_some hf
      exact h1
    refine ⟨a, List.mem_of_find?_eq_some hf, eq_of_beq ha, ?_⟩
    simpa using h

/- Prediction-store round lemmas. -/

lemma roundMap_update_self (s : PredStore) (d : String) (R : Nat) (v : Option Int) :
    roundMap (PredictionManager.updatePrediction s d R v) R
      = setAssoc (roundMap s R) d v := by
  unfold PredictionManager.updatePrediction roundMap
  rw [getAssoc_setAssoc_self]
  rfl

lemma roundMap_update_other (s : PredStore) (d : String) (R : Nat) (v : Option Int)
    (r : Nat) (hr : r ≠ R) :
    roundMap (PredictionManager.updatePrediction s d R v) r = roundMap s r := by
  unfold PredictionManager.updatePrediction roundMap
  rw [getAssoc_setAssoc_other _ _ _ _ hr]

lemma roundMap_appUpdateStore_other (s : PredStore) (d : String) (R : Nat) (w : Nat)
    (r : Nat) (hr : r ≠ R) :
    roundMap (appUpdateStore s d R w) r = roundMap s r := by
  unfold appUpdateStore
  by_cases hw : w = 0
  · rw [if_pos hw, roundMap_update_other _ _ _ _ _ hr]
  · rw [if_neg hw, roundMap_update_other _ _ _ _ _ hr]
    split
    · split
      · rw [roundMap_update_other _ _ _ _ _ hr]
      · rfl
    · rfl

/-- find? returns the designated element when it is present, satisfies the
predicate, and is the only element satisfying it. -/
lemma find?_key_eq {α : Type} (p : α → Bool) {l : List α} {a : α}
    (hmem : a ∈ l) (hp : p a = true) (huniq : ∀ b ∈ l, p b = true → b = a) :
    l.find? p = some a := by
  have hsome : (l.find? p).isSome := List.find?_isSome.mpr ⟨a, hmem, hp⟩
  obtain ⟨b, hb⟩ := Option.isSome_iff_exists.mp hsome
  rw [hb, huniq b (List.mem_of_find?_eq_some hb) (List.find?_some hb)]

/-- Claim C7: for every participant and every round/event-kind, the resolver's
predicted position follows the priority chain exactly as the spec states it —
an explicit prediction-store entry is used first (an explicit null entry
yields 0); otherwise published qualifying data for the round decides (the
participant's qualifying position when they appear, 0 when they do not);
otherwise the current championship position when it is at most 20, and 0 when
it is above 20 or the participant is unknown. -/
theorem C7_resolver_priority_chain
    (userPredictions sprintPredictions : PredStore)
    (driverId : String) (round : Nat) (isSprint : Bool)
    (qual sprintQual : Nat → Option (List QualEntry))
    (driversData : List DriverStanding) :
    PredictionManager.getPredictedPosition userPredictions sprintPredictions
        driverId round isSprint qual sprintQual driversData
      = specPredictedPosition userPredictions sprintPredictions
        driverId round isSprint qual sprintQual driversData := by
  simp only [PredictionManager.getPredictedPosition, specPredictedPosition]
  cases lookupPred (if isSprint then sprintPredictions else userPredictions) round driverId with
  | some pos => cases pos <;> rfl
  | none =>
    cases (if isSprint then sprintQual else qual) round with
    | some qs => rfl
    | none =>
      cases driversData.find? (fun d => d.driverId == driverId) with
      | none => rfl
      | some driver =>
        by_cases hd : 20 < driver.position
        · have hle : ¬driver.position ≤ 20 := by omega
          simp [hd, hle]
        · have hle : driver.position ≤ 20 := by omega
          simp [hd, hle]

/-- Claim C2 fails on the code: a participant ranked 21st who has a stored
user prediction of 5 for the round resolves to predicted position 5, not 0 —
the stored prediction takes priority over the championship-position rule. -/
theorem C2_counterexample :
    PredictionManager.getPredictedPosition [(1, [("ham", some 5)])] []
        "ham" 1 false (fun _ => none) (fun _ => none) [⟨"ham", 21⟩] = 5
      ∧ (5 : Int) ≠ 0 := by
  constructor
  · rfl
  · decide

/-- Claim C2 amended: for a participant with championship position above 20
(or unknown), the resolver's predicted position is 0 provided no stored
prediction entry exists for that round/event-kind and no qualifying data is
published for it (the stored-prediction and qualifying branches otherwise take
priority). -/
theorem C2_amended_champ_over_20
    (userS sprintS : PredStore) (driverId : String) (round : Nat) (isSprint : Bool)
    (qual sprintQual : Nat → Option (List QualEntry)) (driversData : List DriverStanding)
    (hpred : lookupPred (if isSprint then sprintS else userS) round driverId = none)
    (hqual : (if isSprint then sprintQual else qual) round = none)
    (hdrv : ∀ d ∈ driversData, d.driverId = driverId → 20 < d.position) :
    PredictionManager.getPredictedPosition userS sprintS driverId round isSprint
      qual sprintQual driversData = 0 := by
  simp only [PredictionManager.getPredictedPosition]
  rw [hpred, hqual]
  cases hf : driversData.find? (fun d => d.driverId == driverId) with
  | none => rfl
  | some driver =>
    have hid : (driver.driverId == driverId) = true := by
      have h1 := List.find?_some hf
      exact h1
    have hgt := hdrv driver (List.mem_of_find?_eq_some hf) (eq_of_beq hid)
    simp [hgt]

/-- Witness for the amended C2 at a concrete input: championship position 21,
no prediction, no qualifying data, predicted position 0. -/
theorem C2_amended_witness :
    PredictionManager.getPredictedPosition [] [] "bea" 4 false
      (fun _ => none) (fun _ => none) [⟨"bea", 21⟩] = 0 :=
  C2_amended_champ_over_20 [] [] "bea" 4 false (fun _ => none) (fun _ => none)
    [⟨"bea", 21⟩] (by decide) rfl (by decide)

/-- Claim C8: on a resolved round/event-kind in which the participant has a
result entry, both resolvers return an actual record: isActual is true, the
points are exactly the stored points (never recomputed from the scoring
tables), and a positionText of "R" resolves to position 0 — an actual DNF,
not absence. -/
theorem C8_actual_result_as_stored
    (driverId : String) (round : Nat)
    (raceResults sprintResults : Nat → Option (List ResultEntry))
    (rs ss : List ResultEntry) (er es : ResultEntry)
    (hr : raceResults round = some rs) (hmr : er ∈ rs) (hidr : er.driverId = driverId)
    (hur : ∀ e ∈ rs, e.driverId = driverId → e = er)
    (hs : sprintResults round = some ss) (hms : es ∈ ss) (hids : es.driverId = driverId)
    (hus : ∀ e ∈ ss, e.driverId = driverId → e = es) :
    (∃ out, PointsCalculator.getDriverRaceResult driverId round raceResults = some out
      ∧ out.isActual = true ∧ out.points = er.points
      ∧ (er.positionText = "R" → out.position = 0)) ∧
    (∃ out, PointsCalculator.getDriverSprintResult driverId round sprintResults = some out
      ∧ out.isActual = true ∧ out.points = es.points
      ∧ (es.positionText = "R" → out.position = 0)) := by
  have hfr : rs.find? (fun r => r.driverId == driverId) = some er :=
    find?_key_eq _ hmr (by simp [hidr]) (fun b hb hpb => hur b hb (eq_of_beq hpb))
  have hfs : ss.find? (fun r => r.driverId == driverId) = some es :=
    find?_key_eq _ hms (by simp [hids]) (fun b hb hpb => hus b hb (eq_of_beq hpb))
  constructor
  · have hcalc : PointsCalculator.getDriverRaceResult driverId round raceResults
        = some { position := if er.positionText == "R" then 0 else er.position,
                 points := er.points, isActual := true } := by
      simp only [PointsCalculator.getDriverRaceResult, hr, hfr]
    refine ⟨_, hcalc, rfl, rfl, fun hR => ?_⟩
    simp [hR]
  · have hcalc : PointsCalculator.getDriverSprintResult driverId round sprintResults
        = some { position := if es.positionText == "R" then 0 else es.position,
                 points := es.points, isActual := true } := by
      simp only [PointsCalculator.getDriverSprintResult, hs, hfs]
    refine ⟨_, hcalc, rfl, rfl, fun hR => ?_⟩
    simp [hR]

/-- Witness for C8 at a concrete input: a retired entry ("R") with stored
bonus-style points 3 resolves to position 0, isActual, points 3 (the race
scoring table would award 0 for position 0, so the points are visibly taken
from the stored data, not the table). -/
theorem C8_witness :
    (∃ out, PointsCalculator.getDriverRaceResult "x" 5
        (fun r => if r = 5 then some [⟨"x", "R", 14, 3⟩] else none) = some out
      ∧ out.isActual = true ∧ out.points = (ResultEntry.mk "x" "R" 14 3).points
      ∧ ((ResultEntry.mk "x" "R" 14 3).positionText = "R" → out.position = 0)) ∧
    (∃ out, PointsCalculator.getDriverSprintResult "x" 5
        (fun r => if r = 5 then some [⟨"x", "R", 2, 1⟩] else none) = some out
      ∧ out.isActual = true ∧ out.points = (ResultEntry.mk "x" "R" 2 1).points
      ∧ ((ResultEntry.mk "x" "R" 2 1).positionText = "R" → out.position = 0)) :=
  C8_actual_result_as_stored "x" 5
    (fun r => if r = 5 then some [⟨"x", "R", 14, 3⟩] else none)
    (fun r => if r = 5 then some [⟨"x", "R", 2, 1⟩] else none)
    [⟨"x", "R", 14, 3⟩] [⟨"x", "R", 2, 1⟩] ⟨"x", "R", 14, 3⟩ ⟨"x", "R", 2, 1⟩
    rfl (by decide) rfl (by decide) rfl (by decide) rfl (by decide)

/-- Clearing a driver's entry cannot create a duplicate position holder. -/
lemma oneToOne_clear_write (m : PredMap) (d : String) (h1 : OneToOne m) :
    OneToOne (setAssoc m d none) := by
  intro q hq e1 he1 e2 he2 hv1 hv2
  rcases mem_setAssoc he1 with h1' | ⟨h1m, _⟩
  · rw [h1'] at hv1
    simp at hv1
  rcases mem_setAssoc he2 with h2' | ⟨h2m, _⟩
  · rw [h2'] at hv2
    simp at hv2
  exact h1 q hq e1 h1m e2 h2m hv1 hv2

/-- Writing a positive position no other driver holds keeps the map
one-to-one. -/
lemma oneToOne_plain_write (m : PredMap) (d : String) (p : Int) (h1 : OneToOne m)
    (hno : ∀ e ∈ m, e.2 = some p → e.1 = d) :
    OneToOne (setAssoc m d (some p)) := by
  intro q hq e1 he1 e2 he2 hv1 hv2
  rcases mem_setAssoc he1 with h1' | ⟨h1m, h1k⟩ <;>
    rcases mem_setAssoc he2 with h2' | ⟨h2m, h2k⟩
  · rw [h1', h2']
  · rw [h1'] at hv1
    have hpq : p = q := by simpa using hv1
    exact absurd (hno e2 h2m (by rw [hv2, hpq])) h2k
  · rw [h2'] at hv2
    have hpq : p = q := by simpa using hv2
    exact absurd (hno e1 h1m (by rw [hv1, hpq])) h1k
  · exact h1 q hq e1 h1m e2 h2m hv1 hv2

/-- The swap write: handing the conflicting holder the writer's previous value
and then writing the position keeps the map one-to-one. -/
lemma oneToOne_swap_write (m : PredMap) (d : String) (p : Int)
    (o : String × Option Int) (ho : o ∈ m) (hod : o.1 ≠ d) (hop : o.2 = some p)
    (h1 : OneToOne m) :
    OneToOne (setAssoc (setAssoc m o.1 ((getAssoc m d).getD none)) d (some p)) := by
  have hold : ∀ q : Int, (getAssoc m d).getD none = some q →
      ∃ ed, ed ∈ m ∧ ed.1 = d ∧ ed.2 = some q := by
    intro q hqv
    cases hga : getAssoc m d with
    | none => rw [hga] at hqv; simp at hqv
    | some v =>
      rw [hga] at hqv
      simp only [Option.getD_some] at hqv
      obtain ⟨ed, hm, hk, hv⟩ := getAssoc_eq_some hga
      exact ⟨ed, hm, hk, by rw [hv, hqv]⟩
  intro q hq e1 he1 e2 he2 hv1 hv2
  rcases mem_setAssoc he1 with h1' | ⟨h1i, h1k⟩
  · -- e1 is the writer's new entry (d, some p)
    rcases mem_setAssoc he2 with h2' | ⟨h2i, h2k⟩
    · rw [h1', h2']
    · rw [h1'] at hv1
      have hpq : p = q := by simpa using hv1
      rcases mem_setAssoc h2i with h2o | ⟨h2m, h2ko⟩
      · -- e2 is the swapped holder's new entry (o.1, old) with old = some p
        rw [h2o] at hv2
        simp only at hv2
        obtain ⟨ed, hem, hek, hev⟩ := hold q hv2
        rw [hpq] at hop
        have := h1 q hq o ho ed hem hop hev
        exact absurd (this.trans hek) hod
      · -- e2 is an untouched entry holding p: it must be o, contradiction
        have := h1 q hq e2 h2m o ho hv2 (by rw [hop, hpq])
        exact absurd this h2ko
  rcases mem_setAssoc he2 with h2' | ⟨h2i, h2k⟩
  · -- e2 is the writer's new entry
    rw [h2'] at hv2
    have hpq : p = q := by simpa using hv2
    rcases mem_setAssoc h1i with h1o | ⟨h1m, h1ko⟩
    · rw [h1o] at hv1
      simp only at hv1
      obtain ⟨ed, hem, hek, hev⟩ := hold q hv1
      rw [hpq] at hop
      have := h1 q hq o ho ed hem hop hev
      exact absurd (this.trans hek) hod
    · have := h1 q hq e1 h1m o ho hv1 (by rw [hop, hpq])
      exact absurd this h1ko
  -- neither is the writer's new entry
  rcases mem_setAssoc h1i with h1o | ⟨h1m, h1ko⟩ <;>
    rcases mem_setAssoc h2i with h2o | ⟨h2m, h2ko⟩
  · rw [h1o, h2o]
  · rw [h1o] at hv1
    simp only at hv1
    obtain ⟨ed, hem, hek, hev⟩ := hold q hv1
    have := h1 q hq e2 h2m ed hem hv2 hev
    exact absurd (this.trans hek) h2k
  · rw [h2o] at hv2
    simp only at hv2
    obtain ⟨ed, hem, hek, hev⟩ := hold q hv2
    have := h1 q hq e1 h1m ed hem hv1 hev
    exact absurd (this.trans hek) h1k
  · exact h1 q hq e1 h1m e2 h2m hv1 hv2

/-- The app-level write preserves the one-to-one invariant on every round. -/
lemma oneToOne_appUpdateStore (s : PredStore) (d : String) (R : Nat) (w : Nat)
    (h : ∀ r, OneToOne (roundMap s r)) :
    ∀ r, OneToOne (roundMap (appUpdateStore s d R w) r) := by
  intro r
  by_cases hr : r = R
  case neg =>
    rw [roundMap_appUpdateStore_other _ _ _ _ _ hr]
    exact h r
  subst hr
  by_cases hw : w = 0
  · unfold appUpdateStore
    rw [if_pos hw, roundMap_update_self]
    exact oneToOne_clear_write _ _ (h r)
  · have hpos : (0 : Int) < (w : Int) := by
      exact_mod_cast Nat.pos_of_ne_zero hw
    unfold appUpdateStore
    rw [if_neg hw, if_pos hpos]
    split
    · rename_i o hfind
      have hoP : (o.1 != d && o.2 == some (w : Int)) = true := by
        have hx := List.find?_some hfind
        exact hx
      simp only [Bool.and_eq_true, bne_iff_ne, beq_iff_eq] at hoP
      rw [roundMap_update_self, roundMap_update_self]
      exact oneToOne_swap_write _ _ _ o (List.mem_of_find?_eq_some hfind) hoP.1 hoP.2 (h r)
    · rename_i hfind
      rw [roundMap_update_self]
      apply oneToOne_plain_write _ _ _ (h r)
      intro e hem hev
      have hnp := List.find?_eq_none.mp hfind e hem
      simp only [Bool.and_eq_true, bne_iff_ne, beq_iff_eq, not_and] at hnp
      by_contra hne
      exact hnp hne hev

/-- Claim C6: every prediction write through the application's update path
(race and sprint) preserves the one-to-one invariant — within each
round/event-kind map, at most one participant holds any concrete positive
position — for every starting state satisfying it and every written value
(1..20 positions and the 0/null clear all arrive as a Nat here, 0 denoting
the null option). -/
theorem C6_one_to_one_preserved (st : AppState) (d : String) (R : Nat) (w : Nat)
    (h1 : ∀ r, OneToOne (roundMap st.userPredictions r))
    (h2 : ∀ r, OneToOne (roundMap st.sprintPredictions r)) :
    (∀ r, OneToOne (roundMap (F1StandingsApp.updatePrediction st d R w).userPredictions r)) ∧
    (∀ r, OneToOne (roundMap (F1StandingsApp.updateSprintPrediction st d R w).sprintPredictions r)) :=
  ⟨oneToOne_appUpdateStore st.userPredictions d R w h1,
   oneToOne_appUpdateStore st.sprintPredictions d R w h2⟩

/-- Witness for C6 at a concrete input: writing position 1 for driver "a" in
round 1 starting from the empty stores. -/
theorem C6_witness :
    (∀ r, OneToOne (roundMap
        (F1StandingsApp.updatePrediction ⟨[], [], ∅⟩ "a" 1 1).userPredictions r)) ∧
    (∀ r, OneToOne (roundMap
        (F1StandingsApp.updateSprintPrediction ⟨[], [], ∅⟩ "a" 1 1).sprintPredictions r)) :=
  C6_one_to_one_preserved ⟨[], [], ∅⟩ "a" 1 1
    (fun _ _ _ e1 he1 => absurd he1 (List.not_mem_nil e1))
    (fun _ _ _ e1 he1 => absurd he1 (List.not_mem_nil e1))

/-- The swap behaviour of the app-level write path on the targeted store: when
a different participant B uniquely holds the written positive position p, B
receives the writer's previous stored value (none when the writer had no
entry or an explicit null) while the writer receives p, and every other
participant's entry is untouched. -/
lemma appUpdateStore_swap (s : PredStore) (R : Nat) (A B : String) (p : Nat)
    (prevA : Option (Option Int)) (hp : p ≠ 0) (hAB : B ≠ A)
    (hB : lookupPred s R B = some (some (p : Int)))
    (huniq : ∀ e ∈ roundMap s R, e.1 ≠ A → e.2 = some (p : Int) → e.1 = B)
    (hA : lookupPred s R A = prevA) :
    lookupPred (appUpdateStore s A R p) R A = some (some (p : Int)) ∧
    lookupPred (appUpdateStore s A R p) R B = some (prevA.getD none) ∧
    ∀ k, k ≠ A → k ≠ B → lookupPred (appUpdateStore s A R p) R k = lookupPred s R k := by
  have hpos : (0 : Int) < (p : Int) := by
    exact_mod_cast Nat.pos_of_ne_zero hp
  obtain ⟨eb, hebmem, hebk, hebv⟩ := getAssoc_eq_some hB
  have hebeq : eb = (B, some (p : Int)) := Prod.ext hebk hebv
  have hfind : (roundMap s R).find? (fun e => e.1 != A && e.2 == some (p : Int))
      = some (B, some (p : Int)) := by
    apply find?_key_eq
    · rw [← hebeq]
      exact hebmem
    · simp [hAB]
    · intro b hbmem hpb
      simp only [Bool.and_eq_true, bne_iff_ne, beq_iff_eq] at hpb
      exact Prod.ext (huniq b hbmem hpb.1 hpb.2) hpb.2
  have hAold : ((roundMap s R).find? (fun e => e.1 == A)).map (fun e => e.2) = prevA := hA
  have hstep : appUpdateStore s A R p
      = PredictionManager.updatePrediction
          (PredictionManager.updatePrediction s B R (prevA.getD none)) A R
          (some (p : Int)) := by
    unfold appUpdateStore
    rw [if_neg hp, if_pos hpos, hfind, hAold]
  rw [hstep]
  unfold lookupPred
  rw [roundMap_update_self]
  refine ⟨?_, ?_, ?_⟩
  · rw [getAssoc_setAssoc_self]
  · rw [getAssoc_setAssoc_other _ _ _ _ hAB, roundMap_update_self, getAssoc_setAssoc_self]
  · intro k hkA hkB
    rw [getAssoc_setAssoc_other _ _ _ _ hkA, roundMap_update_self,
        getAssoc_setAssoc_other _ _ _ _ hkB]

/-- Claim C5: through both app-level write paths (race and sprint), writing a
positive position p for participant A while a different participant B uniquely
holds p reassigns B to A's previous stored value (which may be null) as the
write completes, A receives p, and no other entry of that round's map changes
— a single-level, non-cascading swap. -/
theorem C5_swap_on_write (st : AppState) (R : Nat) (A B : String) (p : Nat)
    (prevU prevS : Option (Option Int)) (hp : p ≠ 0) (hAB : B ≠ A)
    (hBu : lookupPred st.userPredictions R B = some (some (p : Int)))
    (huniqU : ∀ e ∈ roundMap st.userPredictions R, e.1 ≠ A → e.2 = some (p : Int) → e.1 = B)
    (hAu : lookupPred st.userPredictions R A = prevU)
    (hBs : lookupPred st.sprintPredictions R B = some (some (p : Int)))
    (huniqS : ∀ e ∈ roundMap st.sprintPredictions R, e.1 ≠ A → e.2 = some (p : Int) → e.1 = B)
    (hAs : lookupPred st.sprintPredictions R A = prevS) :
    (lookupPred (F1StandingsApp.updatePrediction st A R p).userPredictions R A
        = some (some (p : Int)) ∧
     lookupPred (F1StandingsApp.updatePrediction st A R p).userPredictions R B
        = some (prevU.getD none) ∧
     ∀ k, k ≠ A → k ≠ B →
       lookupPred (F1StandingsApp.updatePrediction st A R p).userPredictions R k
         = lookupPred st.userPredictions R k) ∧
    (lookupPred (F1StandingsApp.updateSprintPrediction st A R p).sprintPredictions R A
        = some (some (p : Int)) ∧
     lookupPred (F1StandingsApp.updateSprintPrediction st A R p).sprintPredictions R B
        = some (prevS.getD none) ∧
     ∀ k, k ≠ A → k ≠ B →
       lookupPred (F1StandingsApp.updateSprintPrediction st A R p).sprintPredictions R k
         = lookupPred st.sprintPredictions R k) :=
  ⟨appUpdateStore_swap st.userPredictions R A B p prevU hp hAB hBu huniqU hAu,
   appUpdateStore_swap st.sprintPredictions R A B p prevS hp hAB hBs huniqS hAs⟩

/-- Witness for C5 at the spec's own scenario: with A at 1 and B at 2 in round
3 (both stores), setting A to 2 yields A at 2 and B at 1 — not B at null. -/
theorem C5_witness :
    lookupPred (F1StandingsApp.updatePrediction
        ⟨[(3, [("A", some 1), ("B", some 2)])], [(3, [("A", some 1), ("B", some 2)])], ∅⟩
        "A" 3 2).userPredictions 3 "A" = some (some ((2 : Nat) : Int)) ∧
    lookupPred (F1StandingsApp.updatePrediction
        ⟨[(3, [("A", some 1), ("B", some 2)])], [(3, [("A", some 1), ("B", some 2)])], ∅⟩
        "A" 3 2).userPredictions 3 "B" = some ((some (some (1 : Int))).getD none) := by
  have h := C5_swap_on_write
    ⟨[(3, [("A", some 1), ("B", some 2)])], [(3, [("A", some 1), ("B", some 2)])], ∅⟩
    3 "A" "B" 2 (some (some 1)) (some (some 1))
    (by decide) (by decide) (by decide) (by decide) (by decide)
    (by decide) (by decide) (by decide)
  exact ⟨h.1.1, h.1.2.1⟩

/-- Frame of the app-level write on the targeted round: besides the writer's
entry, at most one other participant's entry (the swapped holder, when a swap
occurs) can change. -/
lemma appUpdateStore_frame (s : PredStore) (d : String) (R : Nat) (w : Nat) :
    ∃ other : Option String,
      ∀ k, k ≠ d → (∀ o, other = some o → k ≠ o) →
        lookupPred (appUpdateStore s d R w) R k = lookupPred s R k := by
  unfold appUpdateStore
  by_cases hw : w = 0
  · rw [if_pos hw]
    refine ⟨none, fun k hk _ => ?_⟩
    unfold lookupPred
    rw [roundMap_update_self, getAssoc_setAssoc_other _ _ _ _ hk]
  · rw [if_neg hw]
    by_cases hpos : (0 : Int) < (w : Int)
    case neg => exact absurd (by exact_mod_cast Nat.pos_of_ne_zero hw) hpos
    rw [if_pos hpos]
    split
    · rename_i o hfind
      refine ⟨some o.1, fun k hk hko => ?_⟩
      have hko1 : k ≠ o.1 := hko o.1 rfl
      unfold lookupPred
      rw [roundMap_update_self, getAssoc_setAssoc_other _ _ _ _ hk,
          roundMap_update_self, getAssoc_setAssoc_other _ _ _ _ hko1]
    · refine ⟨none, fun k hk _ => ?_⟩
      unfold lookupPred
      rw [roundMap_update_self, getAssoc_setAssoc_other _ _ _ _ hk]

/-- Claim C10: a single prediction write (race or sprint) modifies only the
prediction map of the targeted round in the targeted event-kind's store, and
within that map at most two entries — the writer's and, when a swap occurs,
the single conflicting holder's; every other round's map, the entire store of
the other event-kind, and the column-visibility state are unchanged. -/
theorem C10_write_frame (st : AppState) (d : String) (R : Nat) (w : Nat) :
    ((F1StandingsApp.updatePrediction st d R w).sprintPredictions = st.sprintPredictions ∧
     (F1StandingsApp.updatePrediction st d R w).collapsedColumns = st.collapsedColumns ∧
     (∀ r, r ≠ R → roundMap (F1StandingsApp.updatePrediction st d R w).userPredictions r
        = roundMap st.userPredictions r) ∧
     ∃ other : Option String, ∀ k, k ≠ d → (∀ o, other = some o → k ≠ o) →
        lookupPred (F1StandingsApp.updatePrediction st d R w).userPredictions R k
          = lookupPred st.userPredictions R k) ∧
    ((F1StandingsApp.updateSprintPrediction st d R w).userPredictions = st.userPredictions ∧
     (F1StandingsApp.updateSprintPrediction st d R w).collapsedColumns = st.collapsedColumns ∧
     (∀ r, r ≠ R → roundMap (F1StandingsApp.updateSprintPrediction st d R w).sprintPredictions r
        = roundMap st.sprintPredictions r) ∧
     ∃ other : Option String, ∀ k, k ≠ d → (∀ o, other = some o → k ≠ o) →
        lookupPred (F1StandingsApp.updateSprintPrediction st d R w).sprintPredictions R k
          = lookupPred st.sprintPredictions R k) :=
  ⟨⟨rfl, rfl, fun _ hr => roundMap_appUpdateStore_other _ _ _ _ _ hr,
    appUpdateStore_frame _ _ _ _⟩,
   ⟨rfl, rfl, fun _ hr => roundMap_appUpdateStore_other _ _ _ _ _ hr,
    appUpdateStore_frame _ _ _ _⟩⟩

/-- Witness for C10 at a concrete input: a write to round 1 of the race store
leaves the sprint store and an unrelated round untouched. -/
theorem C10_witness :
    (F1StandingsApp.updatePrediction
        ⟨[(1, [("a", some 1)])], [(2, [("b", some 3)])], ∅⟩ "a" 1 2).sprintPredictions
      = [(2, [("b", some 3)])] ∧
    roundMap (F1StandingsApp.updatePrediction
        ⟨[(1, [("a", some 1)])], [(2, [("b", some 3)])], ∅⟩ "a" 1 2).userPredictions 7
      = roundMap [(1, [("a", some 1)])] 7 :=
  ⟨(C10_write_frame ⟨[(1, [("a", some 1)])], [(2, [("b", some 3)])], ∅⟩ "a" 1 2).1.1,
   (C10_write_frame ⟨[(1, [("a", some 1)])], [(2, [("b", some 3)])], ∅⟩ "a" 1 2).1.2.2.1
     7 (by decide)⟩

/-- Membership after the collapse loop when the decision is to collapse. -/
lemma mem_toggle_foldl_true (races : List Race)
    (rr sr : Nat → Option (List ResultEntry)) (acc : Finset ColumnKey) (k : ColumnKey) :
    k ∈ races.foldl (toggleFutureStep true rr sr) acc ↔
      k ∈ acc ∨
      (∃ race ∈ races, (rr race.round).isNone = true ∧ k = ColumnKey.race race.round) ∨
      (∃ race ∈ races, (race.hasSprint && (sr race.round).isNone) = true
        ∧ k = ColumnKey.sprint race.round) := by
  induction races generalizing acc with
  | nil => simp
  | cons race rest ih =>
    rw [List.foldl_cons, ih]
    by_cases h1 : rr race.round = none <;>
      by_cases h2 : race.hasSprint = true ∧ sr race.round = none <;>
        simp [toggleFutureStep, h1, h2, Finset.mem_insert, List.exists_mem_cons] <;>
      aesop

/-- Membership after the collapse loop when the decision is to expand. -/
lemma mem_toggle_foldl_false (races : List Race)
    (rr sr : Nat → Option (List ResultEntry)) (acc : Finset ColumnKey) (k : ColumnKey) :
    k ∈ races.foldl (toggleFutureStep false rr sr) acc ↔
      k ∈ acc ∧
      ¬(∃ race ∈ races, (rr race.round).isNone = true ∧ k = ColumnKey.race race.round) ∧
      ¬(∃ race ∈ races, (race.hasSprint && (sr race.round).isNone) = true
        ∧ k = ColumnKey.sprint race.round) := by
  induction races generalizing acc with
  | nil => simp
  | cons race rest ih =>
    rw [List.foldl_cons, ih]
    by_cases h1 : rr race.round = none <;>
      by_cases h2 : race.hasSprint = true ∧ sr race.round = none <;>
        simp [toggleFutureStep, h1, h2, Finset.mem_erase, List.exists_mem_cons, not_or] <;>
      aesop

/-- Membership in the set of keys toggleAllFuture acts on. -/
lemma mem_futureKeys (races : List Race)
    (rr sr : Nat → Option (List ResultEntry)) (k : ColumnKey) :
    k ∈ futureKeys races rr sr ↔
      (∃ race ∈ races, (rr race.round).isNone = true ∧ k = ColumnKey.race race.round) ∨
      (∃ race ∈ races, (race.hasSprint && (sr race.round).isNone) = true
        ∧ k = ColumnKey.sprint race.round) ∨
      k = ColumnKey.predictedPoints ∨ k = ColumnKey.predictedStanding := by
  unfold futureKeys
  rw [mem_toggle_foldl_true]
  simp only [Finset.mem_insert, Finset.mem_singleton]
  aesop

/-- The visibility check of toggleAllFuture, spelled out. -/
lemma anyFutureVisible_iff (races : List Race)
    (rr : Nat → Option (List ResultEntry)) (S : Finset ColumnKey) :
    anyFutureVisible races rr S = true ↔
      ∃ race ∈ races, (rr race.round).isNone = true ∧ ColumnKey.race race.round ∉ S := by
  unfold anyFutureVisible
  rw [List.any_eq_true]
  simp

/-- Full membership characterization of toggleAllFuture's returned set. -/
lemma mem_toggleAllFuture (races : List Race)
    (rr sr : Nat → Option (List ResultEntry)) (S : Finset ColumnKey) (k : ColumnKey) :
    k ∈ (TableRenderer.toggleAllFuture races rr sr S).1 ↔
      (if anyFutureVisible races rr S then k ∈ S ∨ k ∈ futureKeys races rr sr
       else k ∈ S ∧ k ∉ futureKeys races rr sr) := by
  unfold TableRenderer.toggleAllFuture
  cases hv : anyFutureVisible races rr S with
  | true =>
    simp only [hv, if_true]
    rw [mem_futureKeys]
    simp only [Finset.mem_insert]
    rw [mem_toggle_foldl_true]
    aesop
  | false =>
    simp only [hv, Bool.false_eq_true, if_false]
    rw [mem_futureKeys]
    simp only [Finset.mem_erase]
    rw [mem_toggle_foldl_false]
    aesop

/-- Claim C3 fails on the code: round 1 carries a sprint, nothing is resolved,
and only the race column is collapsed. The unresolved sprint column is
visible, so the claim requires the call to collapse (return true); the code
inspects only race columns, finds none visible, expands everything and
returns false, leaving the sprint column visible. -/
theorem C3_counterexample :
    ((fun _ : Nat => (none : Option (List ResultEntry))) 1).isNone = true ∧
    ColumnKey.sprint 1 ∉ ({ColumnKey.race 1} : Finset ColumnKey) ∧
    (TableRenderer.toggleAllFuture [⟨1, true⟩] (fun _ => none) (fun _ => none)
        {ColumnKey.race 1}).2 = false ∧
    ColumnKey.sprint 1 ∉ (TableRenderer.toggleAllFuture [⟨1, true⟩] (fun _ => none)
        (fun _ => none) {ColumnKey.race 1}).1 := by
  refine ⟨rfl, by decide, by decide, by decide⟩

/-- Claim C3 amended: toggleAllFuture collapses all unresolved race and sprint
columns plus the two synthetic projected columns exactly when at least one
unresolved RACE (main event) column is currently visible — the visibility of
unresolved sprint columns is not consulted by the decision; when no unresolved
race column is visible it expands them all instead, and the returned boolean
is true iff the action collapsed. -/
theorem C3_amended (races : List Race) (rr sr : Nat → Option (List ResultEntry))
    (S : Finset ColumnKey) :
    (TableRenderer.toggleAllFuture races rr sr S).2 = anyFutureVisible races rr S ∧
    (∀ race ∈ races, (rr race.round).isNone = true →
      (ColumnKey.race race.round ∈ (TableRenderer.toggleAllFuture races rr sr S).1
        ↔ anyFutureVisible races rr S = true)) ∧
    (∀ race ∈ races, (race.hasSprint && (sr race.round).isNone) = true →
      (ColumnKey.sprint race.round ∈ (TableRenderer.toggleAllFuture races rr sr S).1
        ↔ anyFutureVisible races rr S = true)) ∧
    (ColumnKey.predictedPoints ∈ (TableRenderer.toggleAllFuture races rr sr S).1
      ↔ anyFutureVisible races rr S = true) ∧
    (ColumnKey.predictedStanding ∈ (TableRenderer.toggleAllFuture races rr sr S).1
      ↔ anyFutureVisible races rr S = true) := by
  refine ⟨rfl, ?_, ?_, ?_, ?_⟩
  · intro race hmem hfut
    have hk : ColumnKey.race race.round ∈ futureKeys races rr sr :=
      (mem_futureKeys races rr sr _).mpr (Or.inl ⟨race, hmem, hfut, rfl⟩)
    rw [mem_toggleAllFuture]
    cases hv : anyFutureVisible races rr S <;> simp [hk]
  · intro race hmem hfut
    have hk : ColumnKey.sprint race.round ∈ futureKeys races rr sr :=
      (mem_futureKeys races rr sr _).mpr (Or.inr (Or.inl ⟨race, hmem, hfut, rfl⟩))
    rw [mem_toggleAllFuture]
    cases hv : anyFutureVisible races rr S <;> simp [hk]
  · have hk : ColumnKey.predictedPoints ∈ futureKeys races rr sr :=
      (mem_futureKeys races rr sr _).mpr (Or.inr (Or.inr (Or.inl rfl)))
    rw [mem_toggleAllFuture]
    cases hv : anyFutureVisible races rr S <;> simp [hk]
  · have hk : ColumnKey.predictedStanding ∈ futureKeys races rr sr :=
      (mem_futureKeys races rr sr _).mpr (Or.inr (Or.inr (Or.inr rfl)))
    rw [mem_toggleAllFuture]
    cases hv : anyFutureVisible races rr S <;> simp [hk]

/-- Witness for the amended C3 at a concrete input: one unresolved sprint
round with everything visible; the call's boolean equals the race-only
visibility check and the sprint column's membership tracks it. -/
theorem C3_amended_witness :
    ((TableRenderer.toggleAllFuture [⟨1, true⟩] (fun _ => none) (fun _ => none) ∅).2
       = anyFutureVisible [⟨1, true⟩] (fun _ => none) ∅) ∧
    (ColumnKey.sprint 1
        ∈ (TableRenderer.toggleAllFuture [⟨1, true⟩] (fun _ => none) (fun _ => none) ∅).1
      ↔ anyFutureVisible [⟨1, true⟩] (fun _ => none) ∅ = true) := by
  have h := C3_amended [⟨1, true⟩] (fun _ => none) (fun _ => none) ∅
  exact ⟨h.1, h.2.2.1 ⟨1, true⟩ (by decide) (by decide)⟩

/-- Claim C4 fails on the code: with rounds 1 and 2 both unresolved and only
round 2's race column collapsed at the start, toggling twice first collapses
everything (round 1 is visible) and then expands everything, ending with an
empty collapsed set instead of the original one. -/
theorem C4_counterexample :
    (TableRenderer.toggleAllFuture [⟨1, false⟩, ⟨2, false⟩] (fun _ => none) (fun _ => none)
      (TableRenderer.toggleAllFuture [⟨1, false⟩, ⟨2, false⟩] (fun _ => none) (fun _ => none)
        {ColumnKey.race 2}).1).1 ≠ {ColumnKey.race 2} := by
  decide

/-- Claim C4 amended: invoking collapseAllFuture twice returns the collapsed
set to its original configuration when the starting state is uniform on the
keys the operation acts on — either none of the unresolved columns and
synthetic projected columns is collapsed, or all of them are and at least one
unresolved race exists (so the second call re-collapses them); in mixed
starting states the double toggle normalizes the state instead of restoring
it. -/
theorem C4_amended (races : List Race) (rr sr : Nat → Option (List ResultEntry))
    (S : Finset ColumnKey)
    (h : (∀ k ∈ futureKeys races rr sr, k ∉ S) ∨
         ((∀ k ∈ futureKeys races rr sr, k ∈ S) ∧
          ∃ race ∈ races, (rr race.round).isNone = true)) :
    (TableRenderer.toggleAllFuture races rr sr
      (TableRenderer.toggleAllFuture races rr sr S).1).1 = S := by
  rcases h with hdisj | ⟨hsub, race0, hm0, hf0⟩
  · cases hv : anyFutureVisible races rr S with
    | true =>
      have hv2 : anyFutureVisible races rr (TableRenderer.toggleAllFuture races rr sr S).1
          = false := by
        rw [Bool.eq_false_iff]
        intro hx
        obtain ⟨race, hm, hf, hnot⟩ := (anyFutureVisible_iff races rr _).mp hx
        apply hnot
        rw [mem_toggleAllFuture, hv, if_pos rfl]
        exact Or.inr ((mem_futureKeys races rr sr _).mpr (Or.inl ⟨race, hm, hf, rfl⟩))
      ext k
      rw [mem_toggleAllFuture, hv2, mem_toggleAllFuture, hv]
      simp only [Bool.false_eq_true, if_false, if_true]
      have hdk : k ∈ futureKeys races rr sr → k ∉ S := fun hk => hdisj k hk
      tauto
    | false =>
      have hnof : ∀ race ∈ races, (rr race.round).isNone = true → False := by
        intro race hm hf
        have h1 : ColumnKey.race race.round ∈ futureKeys races rr sr :=
          (mem_futureKeys races rr sr _).mpr (Or.inl ⟨race, hm, hf, rfl⟩)
        have h2 : anyFutureVisible races rr S = true :=
          (anyFutureVisible_iff races rr S).mpr ⟨race, hm, hf, hdisj _ h1⟩
        rw [hv] at h2
        exact Bool.false_ne_true h2
      have hv2 : anyFutureVisible races rr (TableRenderer.toggleAllFuture races rr sr S).1
          = false := by
        rw [Bool.eq_false_iff]
        intro hx
        obtain ⟨race, hm, hf, _⟩ := (anyFutureVisible_iff races rr _).mp hx
        exact hnof race hm hf
      ext k
      rw [mem_toggleAllFuture, hv2, mem_toggleAllFuture, hv]
      simp only [Bool.false_eq_true, if_false]
      have hdk : k ∈ futureKeys races rr sr → k ∉ S := fun hk => hdisj k hk
      tauto
  · have hv : anyFutureVisible races rr S = false := by
      rw [Bool.eq_false_iff]
      intro hx
      obtain ⟨race, hm, hf, hnot⟩ := (anyFutureVisible_iff races rr S).mp hx
      exact hnot (hsub _ ((mem_futureKeys races rr sr _).mpr (Or.inl ⟨race, hm, hf, rfl⟩)))
    have hk0 : ColumnKey.race race0.round ∈ futureKeys races rr sr :=
      (mem_futureKeys races rr sr _).mpr (Or.inl ⟨race0, hm0, hf0, rfl⟩)
    have hv2 : anyFutureVisible races rr (TableRenderer.toggleAllFuture races rr sr S).1
        = true := by
      rw [anyFutureVisible_iff]
      refine ⟨race0, hm0, hf0, ?_⟩
      rw [mem_toggleAllFuture, hv]
      simp only [Bool.false_eq_true, if_false, not_and]
      intro _
      simp [hk0]
    ext k
    rw [mem_toggleAllFuture, hv2, mem_toggleAllFuture, hv]
    simp only [Bool.false_eq_true, if_false, if_true]
    have hsk : k ∈ futureKeys races rr sr → k ∈ S := fun hk => hsub k hk
    tauto

/-- Witness for the amended C4 at a concrete input: one unresolved round, all
columns visible at the start; the double toggle restores the empty set. -/
theorem C4_amended_witness :
    (TableRenderer.toggleAllFuture [⟨1, false⟩] (fun _ => none) (fun _ => none)
      (TableRenderer.toggleAllFuture [⟨1, false⟩] (fun _ => none) (fun _ => none) ∅).1).1
      = ∅ :=
  C4_amended [⟨1, false⟩] (fun _ => none) (fun _ => none) ∅
    (Or.inl (fun k _ => Finset.not_mem_empty k))

/-- Insertion goes to the front when the new column may precede the head. -/
lemma orderedInsertCol_of_head (x : Column) (B : List Column)
    (h : ∀ b l2, B = b :: l2 → colLE x b = true) :
    orderedInsertCol x B = x :: B := by
  cases B with
  | nil => rfl
  | cons b l2 =>
    unfold orderedInsertCol
    rw [if_pos (h b l2 rfl)]

/-- Insertion skips a prefix none of whose elements the new column may
precede. -/
lemma orderedInsertCol_append (x : Column) (A B : List Column)
    (h : ∀ a ∈ A, colLE x a = false) :
    orderedInsertCol x (A ++ B) = A ++ orderedInsertCol x B := by
  induction A with
  | nil => rfl
  | cons a A2 ih =>
    rw [List.cons_append]
    simp only [orderedInsertCol]
    rw [if_neg (by simp [h a (List.mem_cons_self a A2)])]
    rw [ih (fun a2 ha2 => h a2 (List.mem_cons_of_mem a ha2)), List.cons_append]

/-- The stable sort by collapsed-state is exactly the stable partition:
visible columns first in their original relative order, collapsed columns
after in their original relative order. -/
lemma insertionSortCols_partition (l : List Column) :
    insertionSortCols l
      = l.filter (fun c => !c.isCollapsed) ++ l.filter (fun c => c.isCollapsed) := by
  induction l with
  | nil => rfl
  | cons x l2 ih =>
    unfold insertionSortCols
    rw [ih]
    by_cases hx : x.isCollapsed = true
    · rw [orderedInsertCol_append]
      · rw [orderedInsertCol_of_head]
        · simp [List.filter_cons, hx]
        · intro b l3 hb
          have hbmem : b ∈ l2.filter (fun c => c.isCollapsed) := by
            rw [hb]
            exact List.mem_cons_self b l3
          have hbc := List.of_mem_filter hbmem
          unfold colLE
          simp only at hbc
          simp [hbc]
      · intro a ha
        have hav := List.of_mem_filter ha
        simp only [Bool.not_eq_true'] at hav
        unfold colLE
        simp [hx, hav]
    · rw [orderedInsertCol_of_head]
      · simp [List.filter_cons, hx]
      · intro b l3 hb
        unfold colLE
        simp only [Bool.not_eq_true] at hx
        simp [hx]

/-- Claim C9: for every schedule, results snapshot and collapsed-column set,
getOrderedColumns returns the original chronological column list (sprint
before race within a round, as built) stably partitioned by collapsed-state:
all visible columns first in original relative order, then all collapsed
columns in original relative order. -/
theorem C9_ordered_columns_stable_partition (races : List Race)
    (rr sr : Nat → Option (List ResultEntry)) (collapsed : Finset ColumnKey) :
    TableRenderer.getOrderedColumns races rr sr collapsed
      = (buildColumns races rr sr collapsed).filter (fun c => !c.isCollapsed)
        ++ (buildColumns races rr sr collapsed).filter (fun c => c.isCollapsed) :=
  insertionSortCols_partition _

/-- Claim C1 fails on the code (code bug): round 1 is resolved with a result
set not containing "alice" (who holds championship position 5, has no stored
prediction, and no qualifying data exists), yet the totals aggregator
contributes getRacePoints 5 = 10 for that round instead of 0 — the absence is
defaulted to the championship-position prediction because
calculateTotalPoints does not distinguish a missing driver entry in a
resolved round from an unresolved round. -/
theorem C1_absent_participant_gets_projected_points :
    (∀ e ∈ [ResultEntry.mk "bob" "1" 1 25], e.driverId ≠ "alice") ∧
    ((fun r : Nat => if r = 1 then some [ResultEntry.mk "bob" "1" 1 25] else none) 1).isSome
      = true ∧
    PointsCalculator.calculateTotalPoints "alice" [⟨1, false⟩]
        (fun r => if r = 1 then some [ResultEntry.mk "bob" "1" 1 25] else none)
        (fun _ => none) [] [] ∅
        (fun d r isSp => PredictionManager.getPredictedPosition [] [] d r isSp
          (fun _ => none) (fun _ => none) [⟨"alice", 5⟩]) = 10 :=
  ⟨by decide, rfl, by decide⟩
